import Mathlib

/-!
Verification of the pygoodle git abstraction layer: a shallow embedding of the
output parsers (`pygoodle/git/process_output.py`), the offline and online
operation layers (`pygoodle/git/offline.py`, `pygoodle/git/online.py`), the
reference model (`pygoodle/git/model/`) and the factory
(`pygoodle/git/model/factory.py`), together with theorems settling the
behavioral claims about them.

Python values are embedded as follows: `str` as `String`, `dict` as an
association list preserving insertion order (assignment updates in place,
new keys are appended), fallible code as `Except PyErr`, and the external
filesystem and network as explicit state records.
-/

namespace Pygoodle

/-- Python exceptions raised by the embedded code. -/
inductive PyErr where
  | keyError (key : String)
  | indexError
  | exception (msg : String)
  | notImplementedError
  | calledProcessError (returncode : Int)
  | typeError (msg : String)
deriving Repr, DecidableEq

/-- Python dict with `String` keys, as an insertion-ordered association list. -/
abbrev AList (α : Type) := List (String × α)

/-- Lookup `d[k]`, `None` when absent. -/
def alistLookup {α : Type} : AList α → String → Option α
  | [], _ => none
  | (k, v) :: rest, key => if k = key then some v else alistLookup rest key

/-- Python `d[k] = v`: update in place when the key exists, append otherwise. -/
def alistInsert {α : Type} : AList α → String → α → AList α
  | [], key, v => [(key, v)]
  | (k, v0) :: rest, key, v =>
    if k = key then (k, v) :: rest else (k, v0) :: alistInsert rest key v

/-- Python `d.keys()` in insertion order. -/
def alistKeys {α : Type} (d : AList α) : List String := d.map Prod.fst

/-- Python `k in d`. -/
def alistMem {α : Type} (d : AList α) (key : String) : Bool :=
  (alistLookup d key).isSome

/-- Drop leading whitespace from a character list. -/
def dropLeadingWs : List Char → List Char
  | [] => []
  | c :: cs => if c.isWhitespace then dropLeadingWs cs else c :: cs

/-- Python `s.strip()` for whitespace: drop it from both ends. -/
def pyStrip (s : String) : String :=
  String.mk ((dropLeadingWs (dropLeadingWs s.data).reverse).reverse)

/-- Split a character list on whitespace runs, keeping no empty pieces;
`acc` holds the current piece reversed. -/
def splitWsAux : List Char → List Char → List (List Char)
  | [], acc => if acc = [] then [] else [acc.reverse]
  | c :: cs, acc =>
    if c.isWhitespace then
      if acc = [] then splitWsAux cs [] else acc.reverse :: splitWsAux cs []
    else splitWsAux cs (c :: acc)

/-- Python `s.split()` with no separator: split on whitespace runs, no empties. -/
def pySplitWs (s : String) : List String :=
  (splitWsAux s.data []).map String.mk

/-- Split a character list on a separator character, keeping empty pieces. -/
def splitCharAux (sep : Char) : List Char → List Char → List (List Char)
  | [], acc => [acc.reverse]
  | c :: cs, acc =>
    if c = sep then acc.reverse :: splitCharAux sep cs []
    else splitCharAux sep cs (c :: acc)

/-- Python `s.split(sep)` for a one-character separator (empties kept). -/
def pySplitChar (s : String) (sep : Char) : List String :=
  (splitCharAux sep s.data []).map String.mk

/-- Split a character list into LF-terminated lines, Python `splitlines`
style: a trailing line break opens no further line. -/
def splitLinesAux : List Char → List Char → List (List Char)
  | [], acc => if acc = [] then [] else [acc.reverse]
  | c :: cs, acc =>
    if c = '\n' then acc.reverse :: splitLinesAux cs []
    else splitLinesAux cs (c :: acc)

/-- Python `s.splitlines()` for LF-separated text (the only line breaks the
embedded git output contains). -/
def pySplitlines (s : String) : List String :=
  (splitLinesAux s.data []).map String.mk

/-- Python `xs[i]` on a list: the element, or an IndexError. -/
def pyGet {α : Type} (xs : List α) (i : Nat) : Except PyErr α :=
  match xs.get? i with
  | some a => .ok a
  | none => .error .indexError

/-- Whether `p` is a leading piece of `cs`. -/
def isLeading : List Char → List Char → Bool
  | [], _ => true
  | _ :: _, [] => false
  | p :: ps, c :: cs => p = c && isLeading ps cs

/-- Python `s.startswith(pre)`. -/
def pyStartsWith (s pre : String) : Bool := isLeading pre.data s.data

/-- `Format.remove_prefix(text, pre)` from `pygoodle/format.py`: strip `pre`
from the front of `text` when present, otherwise return `text` unchanged
(Python slices by characters). -/
def Format.stripLeading (text pre : String) : String :=
  if pyStartsWith text pre then String.mk (text.data.drop pre.data.length) else text

/-- Modelled from the spec: `pygoodle/git/constants.py` is not under src/
(only importers are). The spec fixes the remotes mapping keys as
`fetch_url` and `push_url` (section 4.2) and the remote HEAD cache file
name as `HEAD` (sections 4.3 and 6). -/
def FETCH_URL : String := "fetch_url"

/-- Modelled from the spec: see `FETCH_URL`. -/
def PUSH_URL : String := "push_url"

/-- Modelled from the spec: see `FETCH_URL`. -/
def HEAD : String := "HEAD"

/-! ## Output parsers: `pygoodle/git/process_output.py` -/

/-- One line of `ProcessOutput.remotes`: the components of the line are the
remote name, the url and the `(fetch)`/`(push)` tag. -/
def ProcessOutput.remotesLine (acc : AList (AList String)) (components : List String) :
    Except PyErr (AList (AList String)) := do
  let c0 ← pyGet components 0
  let c1 ← pyGet components 1
  let c2 ← pyGet components 2
  let name := pyStrip c0
  let url := pyStrip c1
  let kind := pyStrip c2
  if kind = "(fetch)" then
    match alistLookup acc name with
    | none => .error (.keyError name)
    | some inner => .ok (alistInsert acc name (alistInsert inner FETCH_URL url))
  else if kind = "(push)" then
    match alistLookup acc name with
    | none => .error (.keyError name)
    | some inner => .ok (alistInsert acc name (alistInsert inner PUSH_URL url))
  else
    .error (.exception "Unknown")

/-- `ProcessOutput.remotes(output)`: parse `git remote -v` output. -/
def ProcessOutput.remotes (output : String) : Except PyErr (AList (AList String)) :=
  ((pySplitlines output).map pySplitWs).foldlM ProcessOutput.remotesLine []

/-- `ProcessOutput.tracking_branches(output)`: parse one line of
`git rev-parse --symbolic-full-name <branch>@{upstream}` output into
`(branch, remote-or-None)`. The source calls
`Format.remove_prefix('refs/heads', output)` with the text and the
leading-string arguments in that order. -/
def ProcessOutput.tracking_branches (output : String) :
    Except PyErr (String × Option String) :=
  if pyStartsWith output "refs/heads" then
    .ok (Format.stripLeading "refs/heads" output, none)
  else if pyStartsWith output "refs/remotes" then do
    let components := pySplitChar (Format.stripLeading "refs/remotes" output) '/'
    let remote ← pyGet components 0
    let branch ← pyGet components 1
    .ok (branch, some remote)
  else
    .error (.exception "Failed to parse tracking branch output")

/-- One line of `ProcessOutput.shas`. -/
def ProcessOutput.shasLine (pre : String) (acc : AList String) (line : String) :
    Except PyErr (AList String) := do
  let components := pySplitWs line
  let c0 ← pyGet components 0
  let c1 ← pyGet components 1
  .ok (alistInsert acc (Format.stripLeading c1 pre) (pyStrip c0))

/-- `ProcessOutput.shas(output, pre)`: lines of `<sha> <name-with-pre>` into a
name-to-sha mapping with `pre` stripped from the names. -/
def ProcessOutput.shas (output : String) (pre : String) : Except PyErr (AList String) :=
  (pySplitlines (pyStrip output)).foldlM (ProcessOutput.shasLine pre) []

/-- `ProcessOutput.tag_shas(output)`. -/
def ProcessOutput.tag_shas (output : String) : Except PyErr (AList String) :=
  ProcessOutput.shas output "refs/tags/"

/-- One line of `ProcessOutput.remote_branches`: a one-component line is a
branch name, a three-component line `<name> -> <target>` is the default
branch pointer, any other shape is a parse error. -/
def ProcessOutput.remoteBranchesLine (remote : String)
    (acc : List String × Option String) (line : String) :
    Except PyErr (List String × Option String) := do
  let components := pySplitWs line
  if components.length = 1 then
    let c0 ← pyGet components 0
    .ok (acc.1 ++ [Format.stripLeading (pyStrip c0) (remote ++ "/")], acc.2)
  else if components.length = 3 then
    let c1 ← pyGet components 1
    if c1 = "->" then
      let c2 ← pyGet components 2
      .ok (acc.1, some (Format.stripLeading (pyStrip c2) (remote ++ "/")))
    else
      .error (.exception "Wrong number of components for remote branch")
  else
    .error (.exception "Wrong number of components for remote branch")

/-- `ProcessOutput.remote_branches(output, remote)`. -/
def ProcessOutput.remote_branches (output : String) (remote : String) :
    Except PyErr (List String × Option String) :=
  (pySplitlines (pyStrip output)).foldlM (ProcessOutput.remoteBranchesLine remote) ([], none)

/-- One entry of `ProcessOutput.submodules`: split the entry on whitespace,
take the value, split the variable on dots, take the path and key segments,
and accumulate per-path records. -/
def ProcessOutput.submodulesStep (acc : AList (AList String)) (submodule_info : String) :
    Except PyErr (AList (AList String)) := do
  let parts := pySplitWs submodule_info
  let value ← pyGet parts 1
  let c0 ← pyGet parts 0
  let components := pySplitChar c0 '.'
  let path ← pyGet components 1
  let key ← pyGet components 2
  match alistLookup acc path with
  | some inner => .ok (alistInsert acc path (alistInsert inner key value))
  | none => .ok (alistInsert acc path [(key, value)])

/-- `ProcessOutput.submodules(output)`: accumulate
`submodule.<path>.<key> <value>` entries into one record per path. -/
def ProcessOutput.submodules (output : List String) :
    Except PyErr (AList (AList String)) :=
  output.foldlM ProcessOutput.submodulesStep []

/-! ## Offline operations: `pygoodle/git/offline.py` -/

/-- `GitOffline.get_config_info(path, name, file)` as a function of the stdout
of `git config --file <file> --get-regexp <name>` (`None` when the command
failed): the source splits the captured output on all whitespace
(`output.split()`), producing a flat token list. -/
def GitOffline.get_config_info (stdout : Option String) : List String :=
  match stdout with
  | none => []
  | some s => pySplitWs s

/-- The merge loop of `GitOffline.get_submodules_info`: for every record of
the `.git/config` source, write each of its key/value pairs into the
`.gitmodules` record at the same path (`submodules[name][key] = value`,
a KeyError when the path is absent from the first source). -/
def GitOffline.mergeSubmodulesInfo (submods gitConfigSubmods : AList (AList String)) :
    Except PyErr (AList (AList String)) :=
  gitConfigSubmods.foldlM (fun acc entry =>
    entry.2.foldlM (fun acc kv =>
      match alistLookup acc entry.1 with
      | some inner => .ok (alistInsert acc entry.1 (alistInsert inner kv.1 kv.2))
      | none => .error (.keyError entry.1)) acc) submods

/-- `GitOffline.get_submodules_info(path)` as a function of the stdout of the
two `git config --get-regexp submodule` invocations (`.gitmodules` first,
then `.git/config`). -/
def GitOffline.get_submodules_info (gitmodulesOut gitConfigOut : Option String) :
    Except PyErr (AList (AList String)) := do
  let submods ← ProcessOutput.submodules (GitOffline.get_config_info gitmodulesOut)
  let gitConfigSubmods ← ProcessOutput.submodules (GitOffline.get_config_info gitConfigOut)
  GitOffline.mergeSubmodulesInfo submods gitConfigSubmods

/-- Completed process result of a git command: the exit code. -/
structure CompletedProcess where
  returncode : Int
deriving Repr, DecidableEq

/-- `cmd.run` for a checked command, as a function of the exit code of the
underlying process (`pygoodle/command.py` runs with `check=True`, raising
`CalledProcessError` carrying the code on a non-zero exit). -/
def cmdRun (exitCode : Int) : Except PyErr CompletedProcess :=
  if exitCode = 0 then .ok ⟨exitCode⟩ else .error (.calledProcessError exitCode)

/-- `GitOffline.git_config_unset_all_local(path, variable)` as a function of
the exit code of `git config --local --unset-all <variable>`: a
`CalledProcessError` with code 5 (no such key) is swallowed (the function
then returns `None`), every other failure is re-raised. -/
def GitOffline.git_config_unset_all_local (exitCode : Int) :
    Except PyErr (Option CompletedProcess) :=
  match cmdRun exitCode with
  | .ok cp => .ok (some cp)
  | .error (.calledProcessError rc) =>
    if rc ≠ 5 then .error (.calledProcessError rc) else .ok none
  | .error e => .error e

/-! ## Filesystem state for the default-branch cache -/

/-- Filesystem fragment: the set of existing directories and the text files
with their contents. Paths are absolute strings joined with `/`. -/
structure FS where
  dirs : List String
  files : AList String
deriving Repr, DecidableEq

/-- Directory existence. -/
def FS.dirExists (fs : FS) (p : String) : Bool := fs.dirs.contains p

/-- File existence. -/
def FS.fileExists (fs : FS) (p : String) : Bool := (alistLookup fs.files p).isSome

/-- `fs.make_dir(p, exist_ok=True)`. -/
def FS.makeDir (fs : FS) (p : String) : FS :=
  if fs.dirExists p then fs else { fs with dirs := fs.dirs ++ [p] }

/-- `p.write_text(contents)` (preceded by `touch`). -/
def FS.writeFile (fs : FS) (p : String) (contents : String) : FS :=
  { fs with files := alistInsert fs.files p contents }

/-- `GitOffline.save_default_branch(git_dir, remote, branch)`: no-op when the
directory passed as `git_dir` does not exist or when the cache file
`<git_dir>/refs/remotes/<remote>/HEAD` already exists; otherwise create the
parent directory and write `ref: refs/remotes/<remote>/<branch>`. -/
def GitOffline.save_default_branch (fs : FS) (git_dir remote branch : String) : FS :=
  if !(fs.dirExists git_dir) then fs
  else
    let remote_head_ref := git_dir ++ "/refs/remotes/" ++ remote ++ "/" ++ HEAD
    if fs.fileExists remote_head_ref then fs
    else
      let fs1 := fs.makeDir (git_dir ++ "/refs/remotes/" ++ remote)
      fs1.writeFile remote_head_ref ("ref: refs/remotes/" ++ remote ++ "/" ++ branch)

/-- Modelled from the spec: the external git binary (a declared black box) and
the missing `cmd.get_stdout` wrapper. `git symbolic-ref
refs/remotes/<remote>/HEAD` run in a worktree resolves the pointer file at
`<git-dir>/refs/remotes/<remote>/HEAD` under the git directory
`<path>/.git` (spec sections 4.3 and 6) and prints the target ref of a
`ref: <target>` file; the unchecked stdout path yields `None` when the
command fails (spec section 4.1). -/
def symbolicRefStdout (fs : FS) (path remote : String) : Option String :=
  match alistLookup fs.files (path ++ "/.git/refs/remotes/" ++ remote ++ "/" ++ HEAD) with
  | none => none
  | some contents =>
    if pyStartsWith contents "ref: " then some (String.mk (contents.data.drop 5)) else none

/-- `GitOffline.get_default_branch(path, remote)`: read the symbolic ref for
`refs/remotes/<remote>/HEAD`, keep the chunks with the
`refs/remotes/<remote>/` leading string, strip it, return the first. -/
def GitOffline.get_default_branch (fs : FS) (path remote : String) :
    Except PyErr (Option String) :=
  match symbolicRefStdout fs path remote with
  | none => .ok none
  | some output =>
    let pre := "refs/remotes/" ++ remote ++ "/"
    let branch := ((pySplitWs output).filter (fun chunk => pyStartsWith chunk pre)).map
      (fun chunk => Format.stripLeading chunk pre)
    match branch.head? with
    | none => .error .indexError
    | some b => .ok (some b)

/-! ## Online operations: `pygoodle/git/online.py` -/

/-- `GitOnline.get_default_branch(url)` as a function of the stdout of
`git ls-remote --symref <url> HEAD` (`None` when the command failed): keep
the chunks with the `refs/heads/` leading string, strip it, return the
first. -/
def GitOnline.get_default_branch (stdout : Option String) :
    Except PyErr (Option String) :=
  match stdout with
  | none => .ok none
  | some output =>
    let branch := ((pySplitWs output).filter (fun chunk => pyStartsWith chunk "refs/heads/")).map
      (fun chunk => Format.stripLeading chunk "refs/heads/")
    match branch.head? with
    | none => .error .indexError
    | some b => .ok (some b)

/-- `GitOnline.get_remote_tags_info(path, remote)` as a function of the stdout
of `git ls-remote --tags <remote>`. -/
def GitOnline.get_remote_tags_info (stdout : Option String) :
    Except PyErr (AList String) :=
  match stdout with
  | none => .ok []
  | some output => ProcessOutput.tag_shas output

/-- `GitOnline.get_remote_tag_sha(path, name, remote)`: list the remote tags,
filter the mapping (iterating its keys) for the entries equal to `name`,
and return element 1 of the filtered list when it is non-empty, `None`
otherwise. -/
def GitOnline.get_remote_tag_sha (stdout : Option String) (name : String) :
    Except PyErr (Option String) := do
  let tags ← GitOnline.get_remote_tags_info stdout
  let tag := (alistKeys tags).filter (fun t => t = name)
  if tag.isEmpty then
    .ok none
  else do
    let s ← pyGet tag 1
    .ok (some s)

/-! ## `Remote.default_branch`: `pygoodle/git/model/remote.py` -/

/-- `GitOffline.get_remotes_info(path)` as a function of the stdout of
`git remote -v` (`None` when the command failed): an empty mapping on
failure, otherwise the output parsed by `ProcessOutput.remotes`. -/
def GitOffline.get_remotes_info (stdout : Option String) :
    Except PyErr (AList (AList String)) :=
  match stdout with
  | none => .ok []
  | some output => ProcessOutput.remotes output

/-- `GitOffline.get_remote_fetch_url(path, remote)`: `None` when the remote is
not among the parsed remotes, otherwise `remotes[remote][FETCH_URL]` (a
KeyError when that key is absent from the record). -/
def GitOffline.get_remote_fetch_url (stdout : Option String) (remote : String) :
    Except PyErr (Option String) := do
  let remotes ← GitOffline.get_remotes_info stdout
  match alistLookup remotes remote with
  | none => pure none
  | some inner =>
    match alistLookup inner FETCH_URL with
    | none => .error (.keyError FETCH_URL)
    | some url => pure (some url)

/-- The world a `Remote` operates in. `cloned` is `GitOffline.is_repo_cloned`
for the repo path, `remoteVStdout` is the stdout of `git remote -v` in the
repo (`None` when the command failed), through which `Remote.fetch_url` is
computed by `GitOffline.get_remote_fetch_url`, and `lsRemoteSymref` is the
stdout the network produces for `git ls-remote --symref <url> HEAD`
(`None` when the command fails), with `fs` the local filesystem. -/
structure World where
  fs : FS
  cloned : Bool
  remoteVStdout : Option String
  lsRemoteSymref : String → Option String

/-- Result of one access of the `Remote.default_branch` property: the outcome
(the name the property would return, or the exception it raises — as
written every path that finds a branch ends in the TypeError of the
`RemoteBranch` construction), the filesystem after the access, and how
many network queries (`git ls-remote`) the access performed. -/
structure DefaultBranchResult where
  result : Except PyErr String
  fs : FS
  networkQueries : Nat

/-- The network fallback of `Remote.default_branch`. The source first
evaluates `self.fetch_url`, which runs `git remote -v` through
`ProcessOutput.remotes` and can raise before any network traffic; only
then does it query `GitOnline.get_default_branch(self.fetch_url)` — the
one network query — and call `GitOffline.save_default_branch(self.path,
self.name, self.fetch_url)`, passing the repo path where the callee
expects the git directory (its own FIXME notes this) and the fetch url
where the callee expects the branch name (the property, re-evaluated on
the unchanged `git remote -v` output, yields the same value; a `None` url
renders as the string `None` inside the formatted command line and file
contents). The return statement constructs
`RemoteBranch(name=..., remote=self)` without the required positional
`path` argument, so even a successful lookup ends in a TypeError. -/
def Remote.defaultBranchFallback (w : World) (path name : String) : DefaultBranchResult :=
  match GitOffline.get_remote_fetch_url w.remoteVStdout name with
  | .error e => ⟨.error e, w.fs, 0⟩
  | .ok fetchUrl =>
    let url := match fetchUrl with
      | some u => u
      | none => "None"
    match GitOnline.get_default_branch (w.lsRemoteSymref url) with
    | .error e => ⟨.error e, w.fs, 1⟩
    | .ok _ =>
      let fs1 := GitOffline.save_default_branch w.fs path name url
      ⟨.error (.typeError "RemoteBranch missing required positional argument path"), fs1, 1⟩

/-- The `Remote.default_branch` property for the remote named `name` of the
repo at `path`: when the repo is cloned and the local symbolic-ref lookup
yields a branch, no network query happens, but the return statement also
constructs `RemoteBranch(name=..., remote=self)` without the required
positional `path` argument and raises a TypeError; otherwise fall back to
the network path. -/
def Remote.default_branch (w : World) (path name : String) : DefaultBranchResult :=
  if w.cloned then
    match GitOffline.get_default_branch w.fs path name with
    | .error e => ⟨.error e, w.fs, 0⟩
    | .ok (some _) =>
      ⟨.error (.typeError "RemoteBranch missing required positional argument path"), w.fs, 0⟩
    | .ok none => Remote.defaultBranchFallback w path name
  else
    Remote.defaultBranchFallback w path name

/-! ## Sorting: the factory sorts with Python `sorted(xs, key=...)`, a stable
sort by a string key compared lexicographically by code point. -/

/-- Lexicographic order on character lists by code point, as Python compares
strings. -/
def charListLe : List Char → List Char → Bool
  | [], _ => true
  | _ :: _, [] => false
  | a :: as, b :: bs => if a = b then charListLe as bs else decide (a < b)

/-- Python `a <= b` on strings. -/
def strLe (a b : String) : Bool := charListLe a.data b.data

/-- Insert into a list sorted by a string key, after every element whose key
is strictly smaller and before the first whose key is not: with a stable
fold this reproduces Python stable sorting. -/
def insertSorted {α : Type} (key : α → String) (x : α) : List α → List α
  | [] => [x]
  | y :: ys => if strLe (key x) (key y) then x :: y :: ys else y :: insertSorted key x ys

/-- Python `sorted(xs, key=key)`: stable insertion sort by a string key. -/
def sortBy {α : Type} (key : α → String) (xs : List α) : List α :=
  xs.foldr (insertSorted key) []

/-- The output of `sortBy` is weakly increasing in the key. -/
def SortedByKey {α : Type} (key : α → String) (xs : List α) : Prop :=
  List.Pairwise (fun a b => strLe (key a) (key b) = true) xs

/-! ## Reference model entities -/

/-- A `RemoteBranch` of `pygoodle/git/model/branch/remote_branch.py`, for a
fixed repo path: the owning remote name, the branch name and the
`is_default` flag. -/
structure RemoteBranch where
  remote : String
  name : String
  is_default : Bool
deriving Repr, DecidableEq

/-- A `TrackingBranch` of `pygoodle/git/model/branch/tracking_branch.py`, for
a fixed repo path: its `name` is the local branch name, and it carries the
upstream remote and branch names. -/
structure TrackingBranch where
  name : String
  upstreamRemote : String
  upstreamName : String
deriving Repr, DecidableEq

/-- A `Submodule` as the factory constructs it: the recorded path and the
fields read from the merged submodule record. -/
structure Submodule where
  submodule_path : String
  url : String
  branch : Option String
  active : Bool
deriving Repr, DecidableEq

/-! ## Factory: `pygoodle/git/model/factory.py` -/

/-- `GitFactory.get_remotes(path)` as a function of the parsed
`GitOffline.get_remotes_info` mapping: one `Remote` per key, sorted by
name. -/
def GitFactory.get_remotes (remotesInfo : AList (AList String)) : List String :=
  sortBy (fun name => name) (alistKeys remotesInfo)

/-- `GitFactory.get_local_branches(path)` as a function of the parsed local
branch names: sorted by name. -/
def GitFactory.get_local_branches (branches : List String) : List String :=
  sortBy (fun name => name) branches

/-- `GitFactory.get_local_tags(path)` as a function of the parsed tag-to-sha
mapping: one `LocalTag` per key, sorted by name. -/
def GitFactory.get_local_tags (tagsInfo : AList String) : List String :=
  sortBy (fun name => name) (alistKeys tagsInfo)

/-- `GitFactory.get_remote_branches(path, remote)` as a function of the parsed
`GitOffline.get_remote_branches_info` result: one `RemoteBranch` per
listed name, plus — when a default branch was reported — one more
`RemoteBranch` for it with `is_default=True`, sorted by
`<remote>/<name>`. -/
def GitFactory.get_remote_branches (info : List String × Option String) (remote : String) :
    List RemoteBranch :=
  let branches := info.1.map (fun b => RemoteBranch.mk remote b false)
  let branches := match info.2 with
    | none => branches
    | some d => branches ++ [RemoteBranch.mk remote d true]
  sortBy (fun b => b.remote ++ "/" ++ b.name) branches

/-- `GitFactory.get_tracking_branches(path)` as a function of the parsed
tracking-branch info: sorted by the composite
`<name>/<upstream-remote>/<upstream-branch>` key. -/
def GitFactory.get_tracking_branches (branches : List TrackingBranch) : List TrackingBranch :=
  sortBy (fun b => b.name ++ "/" ++ b.upstreamRemote ++ "/" ++ b.upstreamName) branches

/-- The body of the `GitFactory.get_submodules` loop for one submodule record:
the `url` and `path` keys are required (a KeyError when absent), `branch`
is optional, and `active` is true exactly when the record maps it to the
string `true`. -/
def GitFactory.mkSubmodule (info : AList String) : Except PyErr Submodule := do
  let url ← match alistLookup info "url" with
    | some u => pure u
    | none => Except.error (PyErr.keyError "url")
  let path ← match alistLookup info "path" with
    | some p => pure p
    | none => Except.error (PyErr.keyError "path")
  let branch := alistLookup info "branch"
  let active := alistLookup info "active" = some "true"
  pure ⟨path, url, branch, active⟩

/-- `GitFactory.get_submodules(path)` as a function of the merged submodule
info: one `Submodule` per record, sorted by submodule path. -/
def GitFactory.get_submodules (submodulesInfo : AList (AList String)) :
    Except PyErr (List Submodule) := do
  let submodules ← submodulesInfo.foldlM
    (fun acc entry => do
      let s ← GitFactory.mkSubmodule entry.2
      pure (acc ++ [s])) []
  pure (sortBy (fun s => s.submodule_path) submodules)

/-- `GitFactory.has_tracking_branch(path, name)`: whether some tracking branch
(whose `name` is its local branch name) is named `name`. -/
def GitFactory.has_tracking_branch (tbs : List TrackingBranch) (name : String) : Bool :=
  tbs.any (fun tb => tb.name = name)

/-! ## `AllBranches`: `pygoodle/git/model/factory.py` -/

/-- An `AllBranches` snapshot for one repo. Local branches are names; remote
branches carry their remote. -/
structure AllBranches where
  local_branches : List String
  remote_branches : List RemoteBranch
  tracking_branches : List TrackingBranch
deriving Repr, DecidableEq

/-- `AllBranches.__init__`: drop every local branch for which
`LocalBranch.is_tracking_branch` holds (some tracking branch has the same
name) and every remote branch for which `RemoteBranch.is_tracking_branch`
holds (`GitFactory.has_tracking_branch` on the remote branch name — the
tracking branch names compared against are local branch names). -/
def mkAllBranches (locals : List String) (remotes : List RemoteBranch)
    (tbs : List TrackingBranch) : AllBranches :=
  { local_branches := locals.filter (fun b => !(tbs.any (fun tb => tb.name = b)))
    remote_branches := remotes.filter (fun rb => !(GitFactory.has_tracking_branch tbs rb.name))
    tracking_branches := tbs }

/-! ## Entity create and delete: `pygoodle/git/model/` -/

/-- A git command line the mutating entity methods can invoke. -/
inductive GitCmd where
  | createLocalBranch (path branch : String)
  | deleteLocalBranch (path branch : String)
  | deleteLocalTag (path name : String)
  | deleteRemoteTag (path name remote : String)
  | deleteRemoteBranch (path branch remote : String)
  | addRemote (path name url : String)
deriving Repr, DecidableEq

/-- `LocalBranch.create` as a function of the existence of the branch in the
live git state (which `LocalBranch.exists` re-derives through the
factory): the list of git commands invoked, or the exception raised. An
empty command list leaves every ref and sha unchanged. -/
def LocalBranch.create (exists_ : Bool) (path name : String) : Except PyErr (List GitCmd) :=
  if exists_ then .ok [] else .ok [.createLocalBranch path name]

/-- `LocalBranch.delete`. -/
def LocalBranch.delete (exists_ : Bool) (path name : String) : Except PyErr (List GitCmd) :=
  if !exists_ then .ok [] else .ok [.deleteLocalBranch path name]

/-- `RemoteBranch.create`: the skip-when-existing path returns with no
command; the create path raises NotImplementedError. -/
def RemoteBranch.create (exists_ : Bool) : Except PyErr (List GitCmd) :=
  if exists_ then .ok [] else .error .notImplementedError

/-- `RemoteBranch.delete`. -/
def RemoteBranch.delete (exists_ : Bool) (path name remote : String) :
    Except PyErr (List GitCmd) :=
  if !exists_ then .ok [] else .ok [.deleteRemoteBranch path name remote]

/-- `LocalTag.create`: the skip-when-existing path returns with no command;
the create path raises NotImplementedError. -/
def LocalTag.create (exists_ : Bool) : Except PyErr (List GitCmd) :=
  if exists_ then .ok [] else .error .notImplementedError

/-- `LocalTag.delete`. -/
def LocalTag.delete (exists_ : Bool) (path name : String) : Except PyErr (List GitCmd) :=
  if !exists_ then .ok [] else .ok [.deleteLocalTag path name]

/-- `RemoteTag.create`. -/
def RemoteTag.create (exists_ : Bool) : Except PyErr (List GitCmd) :=
  if exists_ then .ok [] else .error .notImplementedError

/-- `RemoteTag.delete`. -/
def RemoteTag.delete (exists_ : Bool) (path name remote : String) :
    Except PyErr (List GitCmd) :=
  if !exists_ then .ok [] else .ok [.deleteRemoteTag path name remote]

/-- `Remote.exists` raises NotImplementedError unconditionally. -/
def remoteExists : Except PyErr Bool := .error .notImplementedError

/-- `Remote.create(url)`: consult `Remote.exists` (which raises), then either
skip or invoke `git remote add`. The `@error_msg` decorator logs and
re-raises, so the exception propagates. -/
def Remote.create (path name url : String) : Except PyErr (List GitCmd) := do
  let e ← remoteExists
  if e then .ok [] else .ok [.addRemote path name url]

/-! ## General lemmas -/

/-- `charListLe` is total. -/
theorem charListLe_total : ∀ as bs : List Char, charListLe as bs = true ∨ charListLe bs as = true
  | [], _ => Or.inl rfl
  | _ :: _, [] => Or.inr rfl
  | a :: as, b :: bs => by
    by_cases hab : a = b
    · subst hab
      simpa [charListLe] using charListLe_total as bs
    · rcases lt_trichotomy a b with h | h | h
      · left; simp [charListLe, hab, h]
      · exact absurd h hab
      · right
        have hba : b ≠ a := fun e => hab e.symm
        simp [charListLe, hba, h]

/-- `charListLe` is transitive. -/
theorem charListLe_trans : ∀ as bs cs : List Char, charListLe as bs = true →
    charListLe bs cs = true → charListLe as cs = true
  | [], _, _, _, _ => rfl
  | _ :: _, [], _, h1, _ => by simp [charListLe] at h1
  | _ :: _, _ :: _, [], _, h2 => by simp [charListLe] at h2
  | a :: as, b :: bs, c :: cs, h1, h2 => by
    by_cases hab : a = b
    · subst hab
      by_cases hbc : a = c
      · subst hbc
        simp only [charListLe, if_pos rfl] at h1 h2 ⊢
        exact charListLe_trans as bs cs h1 h2
      · simpa [charListLe, hbc] using h2
    · have h1lt : a < b := by simpa [charListLe, hab] using h1
      by_cases hbc : b = c
      · subst hbc
        simp [charListLe, hab, h1lt]
      · have h2lt : b < c := by simpa [charListLe, hbc] using h2
        have hac : a < c := lt_trans h1lt h2lt
        have hac2 : a ≠ c := ne_of_lt hac
        simp [charListLe, hac2, hac]

/-- `strLe` is total. -/
theorem strLe_total (a b : String) : strLe a b = true ∨ strLe b a = true :=
  charListLe_total a.data b.data

/-- `strLe` is transitive. -/
theorem strLe_trans {a b c : String} (h1 : strLe a b = true) (h2 : strLe b c = true) :
    strLe a c = true :=
  charListLe_trans a.data b.data c.data h1 h2

/-- Membership in an `insertSorted` result. -/
theorem mem_insertSorted {α : Type} (key : α → String) (x : α) :
    ∀ (l : List α) (z : α), z ∈ insertSorted key x l ↔ z = x ∨ z ∈ l
  | [], z => by simp [insertSorted]
  | y :: ys, z => by
    by_cases h : strLe (key x) (key y) = true
    · simp [insertSorted, h]
    · simp only [insertSorted, if_neg h, List.mem_cons, mem_insertSorted key x ys z]
      tauto

/-- `insertSorted` preserves sortedness by the key. -/
theorem sortedByKey_insertSorted {α : Type} (key : α → String) (x : α) :
    ∀ l : List α, SortedByKey key l → SortedByKey key (insertSorted key x l)
  | [], _ => List.pairwise_singleton _ _
  | y :: ys, h => by
    rcases List.pairwise_cons.mp h with ⟨hy, hys⟩
    by_cases hxy : strLe (key x) (key y) = true
    · rw [insertSorted, if_pos hxy]
      refine List.pairwise_cons.mpr ⟨?_, h⟩
      intro z hz
      rcases List.mem_cons.mp hz with rfl | hz
      · exact hxy
      · exact strLe_trans hxy (hy z hz)
    · rw [insertSorted, if_neg hxy]
      refine List.pairwise_cons.mpr ⟨?_, sortedByKey_insertSorted key x ys hys⟩
      intro z hz
      rcases (mem_insertSorted key x ys z).mp hz with rfl | hz
      · rcases strLe_total (key z) (key y) with h2 | h2
        · exact absurd h2 hxy
        · exact h2
      · exact hy z hz

/-- The output of `sortBy` is sorted by the key. -/
theorem sortedByKey_sortBy {α : Type} (key : α → String) :
    ∀ l : List α, SortedByKey key (sortBy key l)
  | [] => List.Pairwise.nil
  | x :: xs => sortedByKey_insertSorted key x (sortBy key xs) (sortedByKey_sortBy key xs)

theorem mem_alistKeys_alistInsert {α : Type} :
    ∀ (d : AList α) (k : String) (v : α) (x : String),
      x ∈ alistKeys (alistInsert d k v) ↔ x ∈ alistKeys d ∨ x = k
  | [], k, v, x => by simp [alistInsert, alistKeys]
  | (k0, v0) :: rest, k, v, x => by
    by_cases h : k0 = k
    · subst h
      simp [alistInsert, alistKeys]
      tauto
    · simp only [alistInsert, if_neg h, alistKeys, List.map_cons, List.mem_cons]
      have ih := mem_alistKeys_alistInsert rest k v x
      simp only [alistKeys] at ih
      rw [ih]
      tauto

theorem nodup_alistKeys_alistInsert {α : Type} :
    ∀ (d : AList α) (k : String) (v : α),
      (alistKeys d).Nodup → (alistKeys (alistInsert d k v)).Nodup
  | [], k, v, _ => by simp [alistInsert, alistKeys]
  | (k0, v0) :: rest, k, v, h => by
    have h' : (k0 :: alistKeys rest).Nodup := by simpa [alistKeys] using h
    rcases List.nodup_cons.mp h' with ⟨hk0, hrest⟩
    by_cases hek : k0 = k
    · subst hek
      simpa [alistInsert, alistKeys] using h
    · have ih := nodup_alistKeys_alistInsert rest k v hrest
      have hk0' : k0 ∉ alistKeys (alistInsert rest k v) := by
        intro hmem
        rcases (mem_alistKeys_alistInsert rest k v k0).mp hmem with h'' | h''
        · exact hk0 h''
        · exact hek h''
      simp only [alistInsert, if_neg hek, alistKeys, List.map_cons, List.nodup_cons]
      exact ⟨by simpa [alistKeys] using hk0', by simpa [alistKeys] using ih⟩

theorem shasLine_ok {pre : String} {acc : AList String} {line : String} {acc1 : AList String}
    (h : ProcessOutput.shasLine pre acc line = .ok acc1) :
    ∃ k v, acc1 = alistInsert acc k v := by
  simp only [ProcessOutput.shasLine] at h
  cases h0 : pyGet (pySplitWs line) 0 with
  | error e => rw [h0] at h; simp [bind, Except.bind] at h
  | ok c0 =>
    rw [h0] at h
    cases h1 : pyGet (pySplitWs line) 1 with
    | error e => rw [h1] at h; simp [bind, Except.bind] at h
    | ok c1 =>
      rw [h1] at h
      simp only [bind, Except.bind, Except.ok.injEq] at h
      exact ⟨_, _, h.symm⟩

theorem shasFold_nodup (pre : String) : ∀ (lines : List String) (acc : AList String),
    (alistKeys acc).Nodup → ∀ tags, lines.foldlM (ProcessOutput.shasLine pre) acc = .ok tags →
    (alistKeys tags).Nodup
  | [], acc, hacc, tags, h => by
    simp only [List.foldlM_nil, pure, Except.pure, Except.ok.injEq] at h
    exact h ▸ hacc
  | line :: rest, acc, hacc, tags, h => by
    rw [List.foldlM_cons] at h
    cases h0 : ProcessOutput.shasLine pre acc line with
    | error e => rw [h0] at h; simp [bind, Except.bind] at h
    | ok acc1 =>
      rw [h0] at h
      obtain ⟨k, v, rfl⟩ := shasLine_ok h0
      exact shasFold_nodup pre rest _ (nodup_alistKeys_alistInsert acc k v hacc) tags
        (by simpa [bind, Except.bind] using h)

theorem shas_keys_nodup {output pre : String} {tags : AList String}
    (h : ProcessOutput.shas output pre = .ok tags) : (alistKeys tags).Nodup :=
  shasFold_nodup pre _ [] (by simp [alistKeys]) tags h

theorem alistMem_iff_mem_keys {α : Type} : ∀ (d : AList α) (k : String),
    alistMem d k = true ↔ k ∈ alistKeys d
  | [], k => by simp [alistMem, alistLookup, alistKeys]
  | (k0, v0) :: rest, k => by
    by_cases h : k0 = k
    · subst h
      simp [alistMem, alistLookup, alistKeys]
    · have ih := alistMem_iff_mem_keys rest k
      have h' : ¬ k = k0 := fun e => h e.symm
      simpa [alistMem, alistLookup, alistKeys, h, h'] using ih

theorem filter_eq_of_nodup {l : List String} {name : String} (hd : l.Nodup) :
    l.filter (fun t => t = name) = if name ∈ l then [name] else [] := by
  induction l with
  | nil => simp
  | cons x xs ih =>
    rcases List.nodup_cons.mp hd with ⟨hx, hxs⟩
    by_cases h : x = name
    · subst h
      simp [List.filter_cons, ih hxs, hx]
    · have h' : ¬ name = x := fun e => h e.symm
      simp [List.filter_cons, h, h', ih hxs]



/-! ## Claim theorems -/

/-- The world of the claim C1 scenario: a cloned repo at `/repo` with git
directory `/repo/.git`, a remote named `origin` whose `git remote -v`
listing reports the fetch and push url `url1`, no cache file, and a
network on which the repository at `url1` has default branch `main`. -/
def C1world : World where
  fs := { dirs := ["/repo", "/repo/.git"], files := [] }
  cloned := true
  remoteVStdout := some "origin url1 (fetch)\norigin url1 (push)"
  lsRemoteSymref := fun u =>
    if u = "url1" then some "ref: refs/heads/main\tHEAD\nabc123\tHEAD" else none

/-- The first access of `Remote.default_branch` in the C1 scenario. -/
def C1firstAccess : DefaultBranchResult := Remote.default_branch C1world "/repo" "origin"

/-- The second access of `Remote.default_branch`, on the filesystem the first
access left behind. -/
def C1secondAccess : DefaultBranchResult :=
  Remote.default_branch { C1world with fs := C1firstAccess.fs } "/repo" "origin"

/-- Claim C1: the claim says the first access of `default_branch` with no
cache performs one network query and writes
`<git-dir>/refs/remotes/origin/HEAD` with contents
`ref: refs/remotes/origin/main`, and that a second access with the cache
present performs zero queries and returns the same name. Instead the
first access raises `KeyError(origin)` after zero network queries and
writes nothing: the fallback evaluates `self.fetch_url` first, and its
`ProcessOutput.remotes` parse of the `git remote -v` output raises on
every non-empty listing; a second access fails identically. The final
conjunct evaluates `GitOffline.save_default_branch` at the arguments the
call site passes — `self.path` and `self.fetch_url` — showing that even
the never-reached write would have gone to
`<path>/refs/remotes/origin/HEAD` (the repo root, as the FIXME in the
source notes) with the fetch url in place of the branch name. -/
theorem C1_default_branch_cache :
    C1firstAccess.result = .error (.keyError "origin") ∧
    C1firstAccess.networkQueries = 0 ∧
    C1firstAccess.fs = C1world.fs ∧
    alistLookup C1firstAccess.fs.files "/repo/.git/refs/remotes/origin/HEAD" = none ∧
    C1secondAccess.result = .error (.keyError "origin") ∧
    C1secondAccess.networkQueries = 0 ∧
    GitOffline.save_default_branch C1world.fs "/repo" "origin" "url1"
      = { dirs := ["/repo", "/repo/.git", "/repo/refs/remotes/origin"],
          files := [("/repo/refs/remotes/origin/HEAD", "ref: refs/remotes/origin/url1")] } :=
  ⟨rfl, rfl, rfl, rfl, rfl, rfl, rfl⟩

/-- Claim C2: the claim says `ProcessOutput.remotes` returns
`{origin: {fetch_url: url1, push_url: url1}}` on the two-line
`git remote -v` example without raising. The code raises
`KeyError(origin)` on the first line, because `_remotes[name]` is read
before the name was ever inserted; a line with an unrecognized third
token does raise the parse error the claim describes. -/
theorem C2_remotes_raises :
    ProcessOutput.remotes "origin url1 (fetch)\norigin url1 (push)"
      = .error (.keyError "origin") ∧
    ProcessOutput.remotes "origin url1 (invalid)" = .error (.exception "Unknown") :=
  ⟨rfl, rfl⟩

/-- Claim C3: the claim says `ProcessOutput.tracking_branches` maps
`refs/heads/git` to the branch name `git` with no remote, and
`refs/remotes/origin/git` to remote `origin` and branch `git`. The code
passes the arguments of `Format.remove_prefix` in the wrong order, so it
returns the unstripped constant `refs/heads` as the branch name in the
first case and `(branch, remote) = (remotes, refs)` in the second; only
the parse error for any other leading string behaves as claimed. -/
theorem C3_tracking_branches_swapped :
    ProcessOutput.tracking_branches "refs/heads/git" = .ok ("refs/heads", none) ∧
    ProcessOutput.tracking_branches "refs/remotes/origin/git"
      = .ok ("remotes", some "refs") ∧
    ProcessOutput.tracking_branches "foo/bar"
      = .error (.exception "Failed to parse tracking branch output") :=
  ⟨rfl, rfl, rfl⟩

/-- Claim C4: the claim says `GitOffline.get_submodules_info` merges the
`.gitmodules` record `{url: U, branch: B}` with the `.git/config` record
`{url: U, active: true}` into `{url: U, branch: B, active: true}`. On the
real config output the code raises IndexError, because
`get_config_info` splits the captured output on all whitespace and feeds
single tokens (not `<variable> <value>` lines) to
`ProcessOutput.submodules`; fed whole lines, the parser and the merge
loop would produce exactly the claimed record. -/
theorem C4_submodules_info_indexerror :
    GitOffline.get_submodules_info (some "submodule.sub.url U\nsubmodule.sub.branch B")
      (some "submodule.sub.url U\nsubmodule.sub.active true") = .error .indexError ∧
    ProcessOutput.submodules ["submodule.sub.url U", "submodule.sub.branch B"]
      = .ok [("sub", [("url", "U"), ("branch", "B")])] ∧
    ProcessOutput.submodules ["submodule.sub.url U", "submodule.sub.active true"]
      = .ok [("sub", [("url", "U"), ("active", "true")])] ∧
    GitOffline.mergeSubmodulesInfo [("sub", [("url", "U"), ("branch", "B")])]
      [("sub", [("url", "U"), ("active", "true")])]
      = .ok [("sub", [("url", "U"), ("branch", "B"), ("active", "true")])] :=
  ⟨rfl, rfl, rfl, rfl⟩

/-- Claim C5, counterexample: for the `git branch -r` output in which the
default branch appears both as `origin/main` and as the target of
`origin/HEAD -> origin/main`, `GitFactory.get_remote_branches` returns two
entries with the same remote and name — the plain one and the appended
`is_default` one — so its collections are not duplicate-free. -/
theorem C5_remote_branches_duplicate :
    ProcessOutput.remote_branches "  origin/main\n  origin/HEAD -> origin/main" "origin"
      = .ok (["main"], some "main") ∧
    GitFactory.get_remote_branches (["main"], some "main") "origin"
      = [⟨"origin", "main", false⟩, ⟨"origin", "main", true⟩] :=
  ⟨rfl, rfl⟩

/-- Claim C5, amended: every collection the factory returns is sorted by its
stated key — remotes, local branches and local tags by name, remote
branches by `remote/name`, tracking branches by the composite
`name/remote/branch` key, submodules by path — but no deduplication is
performed. -/
theorem C5_collections_sorted :
    ∀ (remotesInfo : AList (AList String)) (localBranches : List String)
      (tagsInfo : AList String) (rbInfo : List String × Option String) (remote : String)
      (tbs : List TrackingBranch) (subInfo : AList (AList String)) (subs : List Submodule),
    SortedByKey (fun n => n) (GitFactory.get_remotes remotesInfo) ∧
    SortedByKey (fun n => n) (GitFactory.get_local_branches localBranches) ∧
    SortedByKey (fun n => n) (GitFactory.get_local_tags tagsInfo) ∧
    SortedByKey (fun b => b.remote ++ "/" ++ b.name)
      (GitFactory.get_remote_branches rbInfo remote) ∧
    SortedByKey (fun b => b.name ++ "/" ++ b.upstreamRemote ++ "/" ++ b.upstreamName)
      (GitFactory.get_tracking_branches tbs) ∧
    (GitFactory.get_submodules subInfo = .ok subs →
      SortedByKey (fun s => s.submodule_path) subs) := by
  intro remotesInfo localBranches tagsInfo rbInfo remote tbs subInfo subs
  refine ⟨sortedByKey_sortBy _ _, sortedByKey_sortBy _ _, sortedByKey_sortBy _ _,
    sortedByKey_sortBy _ _, sortedByKey_sortBy _ _, ?_⟩
  intro h
  unfold GitFactory.get_submodules at h
  cases h0 : subInfo.foldlM
      (fun acc entry => do
        let s ← GitFactory.mkSubmodule entry.2
        pure (acc ++ [s])) ([] : List Submodule) with
  | error e => rw [h0] at h; simp [bind, Except.bind] at h
  | ok raw =>
    rw [h0] at h
    simp only [bind, Except.bind, pure, Except.pure, Except.ok.injEq] at h
    rw [← h]
    exact sortedByKey_sortBy _ _

/-- Witness for `C5_collections_sorted`: the submodule conjunct applied at a
concrete parsed record. -/
theorem C5_collections_sorted_witness :
    GitFactory.get_submodules [("sub", [("url", "U"), ("path", "sub")])]
      = Except.ok [⟨"sub", "U", none, false⟩] ∧
    SortedByKey (fun s : Submodule => s.submodule_path) [⟨"sub", "U", none, false⟩] :=
  ⟨rfl, (C5_collections_sorted [] [] [] ([], none) "origin" []
    [("sub", [("url", "U"), ("path", "sub")])] [⟨"sub", "U", none, false⟩]).2.2.2.2.2 rfl⟩

/-- Claim C7, counterexample: the claim says `create()` on an entity that
already exists is a no-op that does not raise, for remotes as well. The
`Remote.exists` property raises NotImplementedError unconditionally, so
`Remote.create` raises no matter what the git state holds — in particular
when the remote exists. -/
theorem C7_remote_create_raises :
    Remote.create "/repo" "origin" "url1" = .error .notImplementedError :=
  rfl

/-- Claim C7, amended: for local branches, remote branches, local tags and
remote tags, `create()` when the entity exists and `delete()` when it does
not are no-ops that do not raise and invoke no git command (hence change
no sha); `Remote.create`, by contrast, always raises NotImplementedError
through `Remote.exists`, and `Remote` has no delete method at all. -/
theorem C7_create_delete_noop :
    ∀ path name remote url : String,
    LocalBranch.create true path name = .ok [] ∧
    LocalBranch.delete false path name = .ok [] ∧
    RemoteBranch.create true = .ok [] ∧
    RemoteBranch.delete false path name remote = .ok [] ∧
    LocalTag.create true = .ok [] ∧
    LocalTag.delete false path name = .ok [] ∧
    RemoteTag.create true = .ok [] ∧
    RemoteTag.delete false path name remote = .ok [] ∧
    Remote.create path name url = .error .notImplementedError := by
  intro path name remote url
  exact ⟨rfl, rfl, rfl, rfl, rfl, rfl, rfl, rfl, rfl⟩

/-- Claim C8, counterexample: the claim says the remote side of a tracking
relationship never appears in `remote_branches`. With tracking branch
`feature` upstreamed to `origin/dev`, the remote branch `origin/dev` is
the remote side of the relationship, yet `AllBranches` keeps it in
`remote_branches`, because the exclusion test compares remote branch
names against the local names of tracking branches. -/
theorem C8_remote_side_kept :
    (mkAllBranches ["feature"] [⟨"origin", "dev", false⟩]
        [⟨"feature", "origin", "dev"⟩]).remote_branches = [⟨"origin", "dev", false⟩] ∧
    (mkAllBranches ["feature"] [⟨"origin", "dev", false⟩]
        [⟨"feature", "origin", "dev"⟩]).local_branches = [] ∧
    (⟨"feature", "origin", "dev"⟩ : TrackingBranch).upstreamRemote
      = (⟨"origin", "dev", false⟩ : RemoteBranch).remote ∧
    (⟨"feature", "origin", "dev"⟩ : TrackingBranch).upstreamName
      = (⟨"origin", "dev", false⟩ : RemoteBranch).name :=
  ⟨rfl, rfl, rfl, rfl⟩

/-- Claim C8, amended: in an `AllBranches` snapshot a local branch that is
the local side of a tracking relationship is excluded from
`local_branches`, and a remote branch is excluded from `remote_branches`
exactly when its name equals the local name of some tracking branch — so
the remote side of a relationship stays in `remote_branches` whenever its
name differs from the local name. -/
theorem C8_branch_filtering :
    ∀ (locals : List String) (remotes : List RemoteBranch) (tbs : List TrackingBranch),
    (∀ b ∈ locals, (∃ tb ∈ tbs, tb.name = b) →
      b ∉ (mkAllBranches locals remotes tbs).local_branches) ∧
    (∀ rb ∈ remotes, rb ∈ (mkAllBranches locals remotes tbs).remote_branches ↔
      ¬ ∃ tb ∈ tbs, tb.name = rb.name) ∧
    (mkAllBranches locals remotes tbs).tracking_branches = tbs := by
  intro locals remotes tbs
  refine ⟨?_, ?_, rfl⟩
  · rintro b hb ⟨tb, htb, hname⟩ hmem
    have h2 := (List.mem_filter.mp hmem).2
    simp only [Bool.not_eq_true', List.any_eq_false] at h2
    exact (h2 tb htb) (decide_eq_true hname)
  · intro rb hrb
    constructor
    · rintro hmem ⟨tb, htb, hname⟩
      have h2 := (List.mem_filter.mp hmem).2
      simp only [GitFactory.has_tracking_branch, Bool.not_eq_true', List.any_eq_false] at h2
      exact (h2 tb htb) (decide_eq_true hname)
    · intro hno
      refine List.mem_filter.mpr ⟨hrb, ?_⟩
      simp only [GitFactory.has_tracking_branch, Bool.not_eq_true', List.any_eq_false]
      intro tb htb hname
      exact hno ⟨tb, htb, of_decide_eq_true hname⟩

/-- Witness for `C8_branch_filtering`: the local branch `feature`, the local
side of a tracking relationship, is excluded from `local_branches`. -/
theorem C8_branch_filtering_witness :
    "feature" ∉ (mkAllBranches ["feature"] [] [⟨"feature", "origin", "dev"⟩]).local_branches :=
  (C8_branch_filtering ["feature"] [] [⟨"feature", "origin", "dev"⟩]).1 "feature"
    (List.mem_singleton.mpr rfl) ⟨⟨"feature", "origin", "dev"⟩, List.mem_singleton.mpr rfl, rfl⟩

/-- Claim C9: `GitOffline.git_config_unset_all_local` succeeds when the
underlying `git config --local --unset-all` exits with code 0 or with
code 5 (the key does not exist), and re-raises the command failure with
its exit code for any other non-zero exit. -/
theorem C9_unset_all_exit_codes :
    GitOffline.git_config_unset_all_local 0 = .ok (some ⟨0⟩) ∧
    GitOffline.git_config_unset_all_local 5 = .ok none ∧
    ∀ c : Int, c ≠ 0 → c ≠ 5 →
      GitOffline.git_config_unset_all_local c = .error (.calledProcessError c) := by
  refine ⟨rfl, rfl, ?_⟩
  intro c h0 h5
  unfold GitOffline.git_config_unset_all_local cmdRun
  rw [if_neg h0]
  simp [h5]

/-- Witness for `C9_unset_all_exit_codes` at exit code 3. -/
theorem C9_unset_all_witness :
    (3 : Int) ≠ 0 ∧ (3 : Int) ≠ 5 ∧
    GitOffline.git_config_unset_all_local 3 = .error (.calledProcessError 3) :=
  ⟨by decide, by decide, C9_unset_all_exit_codes.2.2 3 (by decide) (by decide)⟩

/-- Claim C10: `GitOnline.get_remote_tag_sha` never returns a sha — when the
tag name is absent from the remote listing it returns `None`, and when the
name is present it raises IndexError, because it filters the listing keys
(which are free of duplicates) down to the at most one matching name and
then reads element 1 of that list. -/
theorem C10_remote_tag_sha : ∀ (stdout : Option String) (name : String) (tags : AList String),
    GitOnline.get_remote_tags_info stdout = .ok tags →
    (alistMem tags name = true → GitOnline.get_remote_tag_sha stdout name = .error .indexError) ∧
    (alistMem tags name = false → GitOnline.get_remote_tag_sha stdout name = .ok none) := by
  intro stdout name tags h
  have hnodup : (alistKeys tags).Nodup := by
    cases stdout with
    | none =>
      have : tags = [] := by
        simpa [GitOnline.get_remote_tags_info] using h.symm
      simp [this, alistKeys]
    | some out =>
      exact shas_keys_nodup (by
        simpa [GitOnline.get_remote_tags_info, ProcessOutput.tag_shas] using h)
  have hsha : GitOnline.get_remote_tag_sha stdout name =
      (if ((alistKeys tags).filter (fun t => t = name)).isEmpty then .ok none
       else do
        let s ← pyGet ((alistKeys tags).filter (fun t => t = name)) 1
        .ok (some s)) := by
    unfold GitOnline.get_remote_tag_sha
    rw [h]
    rfl
  constructor
  · intro hmem
    have hm : name ∈ alistKeys tags := (alistMem_iff_mem_keys tags name).mp hmem
    rw [hsha, filter_eq_of_nodup hnodup, if_pos hm]
    rfl
  · intro hmem
    have hm : name ∉ alistKeys tags := by
      intro c
      rw [(alistMem_iff_mem_keys tags name).mpr c] at hmem
      cases hmem
    rw [hsha, filter_eq_of_nodup hnodup, if_neg hm]
    rfl

/-- Witness for `C10_remote_tag_sha` on a one-tag listing. -/
theorem C10_remote_tag_sha_witness :
    GitOnline.get_remote_tags_info (some "deadbeef refs/tags/v1.0")
      = .ok [("v1.0", "deadbeef")] ∧
    alistMem [("v1.0", "deadbeef")] "v1.0" = true ∧
    GitOnline.get_remote_tag_sha (some "deadbeef refs/tags/v1.0") "v1.0"
      = .error .indexError :=
  ⟨rfl, rfl,
    (C10_remote_tag_sha (some "deadbeef refs/tags/v1.0") "v1.0" [("v1.0", "deadbeef")] rfl).1 rfl⟩

end Pygoodle
